import Mathlib

/-!
Shallow embedding of the core of the zookeeper_locks package:
the connection lifecycle manager (zookeeper_locks/connection.py,
class ZookeeperConnectionManager) and the lock engine
(zookeeper_locks/locks.py, class Lock).

The remote Zookeeper client is an external collaborator; every call made
to it (construction, start, stop, restart, lock construction, acquire,
release) is recorded as an event in a trace, together with the internal
reference-counter operations and the run of the guarded body, so that
claims about which remote methods are invoked and in what order become
statements about the trace.  Client handles are identified by a fresh
natural number drawn from a counter in the state, so that handle identity
is observable.  Fatal assertion failures (the two `assert` statements in
connection.py) and the KeyError a set.remove may raise are modelled by
`Option`: `none` means the operation raised, leaving the state with the
caller unchanged.
-/

/-- Events observable during an execution: the reference-counter
operations of the connection manager, every method invoked on the remote
client or on a remote lock, the marking of a concrete key as held, and
the run of the guarded body. -/
inductive Ev where
  | startContext : Ev
  | stopContext : Ev
  | createClient (cid : Nat) : Ev
  | startClient (cid : Nat) : Ev
  | stopClient (cid : Nat) : Ev
  | restartClient (cid : Nat) : Ev
  | createLock (path : String) : Ev
  | acquire (path : String) (blocking : Bool) (timeout : Option Nat) : Ev
  | release (path : String) : Ev
  | markHeld (pid : Nat) (key : String) : Ev
  | unmark (pid : Nat) (key : String) : Ev
  | bodyRun : Ev
  deriving DecidableEq, Repr

/-- Thread-local state of ZookeeperConnectionManager: the reference
counter, the optional client handle (`_data.client`), and the fresh-id
source for newly constructed client handles. -/
structure ConnState where
  reference_counter : Nat
  client : Option Nat
  nextClientId : Nat
  deriving DecidableEq, Repr

/-- ZookeeperConnectionManager.is_managed: the counter is positive. -/
def is_managed (s : ConnState) : Bool :=
  decide (0 < s.reference_counter)

/-- ZookeeperConnectionManager.has_client: a client handle exists. -/
def has_client (s : ConnState) : Bool :=
  s.client.isSome

/-- ZookeeperConnectionManager.start_context: increment the reference
counter (initializing it to 0 first when absent; absence is modelled as
the counter being 0). -/
def start_context (s : ConnState) : ConnState × List Ev :=
  ({ s with reference_counter := s.reference_counter + 1 }, [Ev.startContext])

/-- ZookeeperConnectionManager.stop_context: assert is_managed (else a
fatal AssertionError, modelled as `none`), decrement the counter, and if
it reached 0 while a client exists, stop the client and clear it. -/
def stop_context (s : ConnState) : Option (ConnState × List Ev) :=
  if is_managed s then
    let n := s.reference_counter - 1
    if n = 0 then
      match s.client with
      | some c =>
          some ({ s with reference_counter := n, client := none },
                [Ev.stopContext, Ev.stopClient c])
      | none => some ({ s with reference_counter := n }, [Ev.stopContext])
    else some ({ s with reference_counter := n }, [Ev.stopContext])
  else none

/-- ZookeeperConnectionManager.get_client: assert is_managed (else a
fatal AssertionError, modelled as `none`); create and start a client when
none exists; return the handle. -/
def get_client (s : ConnState) : Option (ConnState × Nat × List Ev) :=
  if is_managed s then
    match s.client with
    | some c => some (s, c, [])
    | none =>
        let c := s.nextClientId
        some ({ s with client := some c, nextClientId := c + 1 }, c,
              [Ev.createClient c, Ev.startClient c])
  else none

/-- ZookeeperConnectionManager.__exit__: call stop_context, then, when
the propagating exception is ConnectionClosedError and a client handle
still exists, restart that handle.  The exception itself keeps
propagating (the method returns False). -/
def exit_ctx (excConnClosed : Bool) (s : ConnState) : Option (ConnState × List Ev) :=
  match stop_context s with
  | none => none
  | some (s1, evs) =>
      if excConnClosed && has_client s1 then
        match s1.client with
        | some c => some (s1, evs ++ [Ev.restartClient c])
        | none => some (s1, evs)
      else some (s1, evs)

/-- Recognizer for reference-counter increments. -/
def isStartCtxEv : Ev → Bool
  | Ev.startContext => true
  | _ => false

/-- Recognizer for reference-counter decrements. -/
def isStopCtxEv : Ev → Bool
  | Ev.stopContext => true
  | _ => false

/-- Recognizer for client constructions. -/
def isCreateClientEv : Ev → Bool
  | Ev.createClient _ => true
  | _ => false

/-- Recognizer for client starts. -/
def isStartClientEv : Ev → Bool
  | Ev.startClient _ => true
  | _ => false

/-- Recognizer for client stops. -/
def isStopClientEv : Ev → Bool
  | Ev.stopClient _ => true
  | _ => false

/-- Recognizer for client restarts. -/
def isRestartEv : Ev → Bool
  | Ev.restartClient _ => true
  | _ => false

/-- Recognizer for remote-lock release calls. -/
def isReleaseEv : Ev → Bool
  | Ev.release _ => true
  | _ => false

/-- Count of reference-counter increments in a trace. -/
def countStartCtx (evs : List Ev) : Nat := evs.countP isStartCtxEv

/-- Count of reference-counter decrements in a trace. -/
def countStopCtx (evs : List Ev) : Nat := evs.countP isStopCtxEv

/-- Count of client constructions in a trace. -/
def countCreateClient (evs : List Ev) : Nat := evs.countP isCreateClientEv

/-- Count of client starts in a trace. -/
def countStartClient (evs : List Ev) : Nat := evs.countP isStartClientEv

/-- Count of client stops in a trace. -/
def countStopClient (evs : List Ev) : Nat := evs.countP isStopClientEv

/-- Count of client restarts in a trace. -/
def countRestart (evs : List Ev) : Nat := evs.countP isRestartEv

/-- Count of remote-lock release calls in a trace. -/
def countRelease (evs : List Ev) : Nat := evs.countP isReleaseEv

/-- Operations a thread may perform on the connection manager, for
stating properties of balanced nested scope sequences. -/
inductive MOp where
  | enterScope : MOp
  | exitScope : MOp
  | getClientCall : MOp
  deriving DecidableEq, Repr

/-- Run a sequence of connection-manager operations, accumulating the
event trace and the list of handles returned by get_client calls.
`none` means some operation raised a fatal assertion error. -/
def runOps : List MOp → ConnState → Option (ConnState × List Ev × List Nat)
  | [], s => some (s, [], [])
  | MOp.enterScope :: rest, s =>
      match runOps rest (start_context s).1 with
      | none => none
      | some (sf, evs2, ids) => some (sf, (start_context s).2 ++ evs2, ids)
  | MOp.exitScope :: rest, s =>
      match stop_context s with
      | none => none
      | some (s1, evs) =>
          match runOps rest s1 with
          | none => none
          | some (sf, evs2, ids) => some (sf, evs ++ evs2, ids)
  | MOp.getClientCall :: rest, s =>
      match get_client s with
      | none => none
      | some (s1, c, evs) =>
          match runOps rest s1 with
          | none => none
          | some (sf, evs2, ids) => some (sf, evs ++ evs2, c :: ids)

/-- Well-formedness of the interior of one outermost scope: starting at
nesting depth `d` (the outermost scope counts as depth 1), exits never
close the outermost scope, and at the end the depth is back to 1 so that
the final outermost exit matches the outermost enter. -/
def insideOk : List MOp → Nat → Bool
  | [], d => d == 1
  | MOp.enterScope :: rest, d => insideOk rest (d + 1)
  | MOp.exitScope :: rest, d => decide (2 ≤ d) && insideOk rest (d - 1)
  | MOp.getClientCall :: rest, d => insideOk rest d

/-- The process-wide Lock.keys_registry: an insertion-ordered mapping
from key template to the registering Lock object identity (id(self)). -/
abbrev Registry := List (String × Nat)

/-- Membership / lookup in the registry (`self.key in self.keys_registry`
and reading the stored object identity). -/
def lookupKey : Registry → String → Option Nat
  | [], _ => none
  | (k, v) :: rest, key => if k = key then some v else lookupKey rest key

/-- Lock._register: raise ImproperlyConfigured (modelled as `none`) when
the key is already registered, otherwise append the new entry. -/
def register (key : String) (lockId : Nat) (reg : Registry) : Option Registry :=
  if (lookupKey reg key).isSome then none
  else some (reg ++ [(key, lockId)])

/-- Lock.__del__: delete the first registry entry whose stored identity
equals the identity of the object being destructed, if any. -/
def lockDel (lockId : Nat) : Registry → Registry
  | [] => []
  | (k, v) :: rest => if v = lockId then rest else (k, v) :: lockDel lockId rest

/-- The per-Lock, thread-local `_locked_store.locked_keys`: a mapping
from process id to the set of concrete keys currently held (sets are
modelled as duplicate-free lists). -/
abbrev LockedStore := List (Nat × List String)

/-- Dictionary lookup in the locked store. -/
def storeLookup : LockedStore → Nat → Option (List String)
  | [], _ => none
  | (p, l) :: rest, pid => if p = pid then some l else storeLookup rest pid

/-- Dictionary update (insert or overwrite) in the locked store. -/
def storeSet : LockedStore → Nat → List String → LockedStore
  | [], pid, l => [(pid, l)]
  | (p, m) :: rest, pid, l =>
      if p = pid then (p, l) :: rest else (p, m) :: storeSet rest pid l

/-- Lock._get_locked_keys: `locked_keys.get(pid) or set()` — the set of
held keys for the current process id, defaulting to empty. -/
def getLockedKeys (st : LockedStore) (pid : Nat) : List String :=
  (storeLookup st pid).getD []

/-- Lock._add_locked_key: ensure an entry for the current pid exists,
then add the key to its set. -/
def addLockedKey (st : LockedStore) (pid : Nat) (key : String) : LockedStore :=
  let cur := getLockedKeys st pid
  storeSet st pid (if key ∈ cur then cur else key :: cur)

/-- Lock._remove_locked_key: ensure an entry for the current pid exists,
then remove the key from its set; removing an absent key raises KeyError
(modelled as `none`). -/
def removeLockedKey (st : LockedStore) (pid : Nat) (key : String) : Option LockedStore :=
  let cur := getLockedKeys st pid
  if key ∈ cur then some (storeSet st pid (cur.erase key)) else none

/-- A Lock instance: its key template, its object identity, and its
held-keys store for the current thread. -/
structure LockInst where
  key : String
  lockId : Nat
  locked_store : LockedStore
  deriving DecidableEq, Repr

/-- Behavior of the remote acquire call, supplied by the environment:
either it returns a boolean, or it raises the remote client timeout
condition (kazoo LockTimeout). -/
inductive AcqBeh where
  | returns (acquired : Bool) : AcqBeh
  | raisesZkTimeout : AcqBeh
  deriving DecidableEq, Repr

/-- Behavior of the guarded body, supplied by the caller: either it
returns normally, or it raises (the flag records whether the raised
exception is ConnectionClosedError). -/
inductive BodyBeh where
  | returns : BodyBeh
  | raises (isConnClosed : Bool) : BodyBeh
  deriving DecidableEq, Repr

/-- Outcome of a Lock invocation as seen by the caller. -/
inductive CallResult where
  | ok : CallResult
  | raisedLockTimeout (msg : String) : CallResult
  | raisedLocked (msg : String) : CallResult
  | raisedBody (isConnClosed : Bool) : CallResult
  deriving DecidableEq, Repr

/-- The path at which the remote lock is constructed:
`/locks/{namespace}/{key}` with the formatted key substituted. -/
def lockPath (ns key : String) : String :=
  "/locks/" ++ ns ++ "/" ++ key

/-- Outcome of the guarded body turned into the call result when the
body's exception propagates unchanged. -/
def bodyResult : BodyBeh → CallResult
  | BodyBeh.returns => CallResult.ok
  | BodyBeh.raises c => CallResult.raisedBody c

/-- Lock.__call__ (the contextmanager body of locks.py): format the key
(the formatted key is passed in as `key_with_params`), check reentrancy
against the held-keys set for the current pid; if held, just run the
body; otherwise enter the connection scope, obtain the client, construct
the remote lock at the derived path, attempt acquire, translate the
remote timeout to LockTimeout, on success mark the key held, run the
body, and in a finally block release the remote lock and unmark the key;
on a false acquire raise Locked.  Every exception propagates through the
connection manager scope exit (exit_ctx), which sees whether it is a
ConnectionClosedError. -/
def lockCall (inst : LockInst) (conn : ConnState) (ns : String) (blocking : Bool)
    (timeout : Option Nat) (key_with_params : String) (pid : Nat)
    (acq : AcqBeh) (body : BodyBeh) :
    Option (LockInst × ConnState × CallResult × List Ev) :=
  if key_with_params ∈ getLockedKeys inst.locked_store pid then
    some (inst, conn, bodyResult body, [Ev.bodyRun])
  else
    match get_client (start_context conn).1 with
    | none => none
    | some (conn2, _cid, ev2) =>
        let path := lockPath ns key_with_params
        let evPre := (start_context conn).2 ++ ev2 ++
          [Ev.createLock path, Ev.acquire path blocking timeout]
        match acq with
        | AcqBeh.raisesZkTimeout =>
            match exit_ctx false conn2 with
            | none => none
            | some (conn3, ev4) =>
                some (inst, conn3,
                  CallResult.raisedLockTimeout
                    ("Timeout occurred while trying to acquire a blocking lock on "
                      ++ key_with_params),
                  evPre ++ ev4)
        | AcqBeh.returns acquired =>
            if acquired then
              match removeLockedKey (addLockedKey inst.locked_store pid key_with_params)
                      pid key_with_params with
              | none => none
              | some st2 =>
                  let evsBody := [Ev.markHeld pid key_with_params, Ev.bodyRun,
                    Ev.release path, Ev.unmark pid key_with_params]
                  match exit_ctx
                      (match body with
                       | BodyBeh.returns => false
                       | BodyBeh.raises c => c) conn2 with
                  | none => none
                  | some (conn3, ev4) =>
                      some ({ inst with locked_store := st2 }, conn3,
                        bodyResult body, evPre ++ evsBody ++ ev4)
            else
              match exit_ctx false conn2 with
              | none => none
              | some (conn3, ev4) =>
                  some (inst, conn3,
                    CallResult.raisedLocked
                      ("Failed to acquire a non-blocking lock on " ++ key_with_params),
                    evPre ++ ev4)

/-! Basic lemmas about the locked-keys store. -/

lemma storeLookup_storeSet_self (st : LockedStore) (pid : Nat) (l : List String) :
    storeLookup (storeSet st pid l) pid = some l := by
  induction st with
  | nil => simp [storeSet, storeLookup]
  | cons hd tl ih =>
      obtain ⟨p, m⟩ := hd
      by_cases h : p = pid
      · simp [storeSet, storeLookup, h]
      · simp [storeSet, storeLookup, h, ih]

lemma getLockedKeys_storeSet_self (st : LockedStore) (pid : Nat) (l : List String) :
    getLockedKeys (storeSet st pid l) pid = l := by
  simp [getLockedKeys, storeLookup_storeSet_self]

lemma storeSet_storeSet (st : LockedStore) (pid : Nat) (l1 l2 : List String) :
    storeSet (storeSet st pid l1) pid l2 = storeSet st pid l2 := by
  induction st with
  | nil => simp [storeSet]
  | cons hd tl ih =>
      obtain ⟨p, m⟩ := hd
      by_cases h : p = pid
      · simp [storeSet, h]
      · simp [storeSet, h, ih]

lemma remove_after_add (st : LockedStore) (pid : Nat) (key : String)
    (h : key ∉ getLockedKeys st pid) :
    removeLockedKey (addLockedKey st pid key) pid key =
      some (storeSet st pid (getLockedKeys st pid)) := by
  unfold addLockedKey removeLockedKey
  simp only [if_neg h]
  simp [getLockedKeys_storeSet_self, storeSet_storeSet, List.erase_cons_head]

/-! Claim theorems. -/

/-- Claim C1, counterexample.  The claim states that a session-closed
error at a scope exit with reference count exactly 1 triggers exactly one
restart call, and with count greater than 1 triggers zero.  The code does
the opposite: `__exit__` runs `stop_context` first, which at count 1
stops and clears the handle, so `has_client` is already false when the
restart condition is tested (zero restarts); at count 2 the handle
survives the decrement and is restarted (one restart). -/
theorem c1_counterexample :
    (exit_ctx true { reference_counter := 1, client := some 0, nextClientId := 1 }).map
        (fun p => countRestart p.2) = some 0 ∧
    ¬ (exit_ctx true { reference_counter := 1, client := some 0, nextClientId := 1 }).map
        (fun p => countRestart p.2) = some 1 ∧
    (exit_ctx true { reference_counter := 2, client := some 0, nextClientId := 1 }).map
        (fun p => countRestart p.2) = some 1 := by
  decide

/-- Claim C1, amended: for a session-closed error propagating out of a
connection-manager scope exit while a client handle exists, an exit at
reference count exactly 1 (outermost scope) makes zero restart calls —
the handle is stopped and cleared by the exit itself — while an exit at
reference count greater than 1 (nested inner scope) makes exactly one
restart call on the surviving handle. -/
theorem c1_amended (s : ConnState) (c : Nat) (hc : s.client = some c) :
    (s.reference_counter = 1 →
      exit_ctx true s =
        some ({ s with reference_counter := 0, client := none },
              [Ev.stopContext, Ev.stopClient c]) ∧
      countRestart [Ev.stopContext, Ev.stopClient c] = 0 ∧
      countStopClient [Ev.stopContext, Ev.stopClient c] = 1) ∧
    (2 ≤ s.reference_counter →
      exit_ctx true s =
        some ({ s with reference_counter := s.reference_counter - 1 },
              [Ev.stopContext, Ev.restartClient c]) ∧
      countRestart [Ev.stopContext, Ev.restartClient c] = 1) := by
  constructor
  · intro h1
    refine ⟨?_, rfl, rfl⟩
    unfold exit_ctx stop_context is_managed has_client
    simp [h1, hc]
  · intro h2
    refine ⟨?_, rfl⟩
    have hpos : 0 < s.reference_counter := by omega
    have hne : ¬ (s.reference_counter - 1 = 0) := by omega
    unfold exit_ctx stop_context is_managed has_client
    simp [hpos, hne, hc]

/-- Witness for c1_amended at concrete states: reference count 1 with
client handle 0, and reference count 2 with client handle 5. -/
theorem c1_amended_witness :
    (exit_ctx true { reference_counter := 1, client := some 0, nextClientId := 1 } =
        some ({ reference_counter := 0, client := none, nextClientId := 1 },
              [Ev.stopContext, Ev.stopClient 0]) ∧
      countRestart [Ev.stopContext, Ev.stopClient 0] = 0 ∧
      countStopClient [Ev.stopContext, Ev.stopClient 0] = 1) ∧
    (exit_ctx true { reference_counter := 2, client := some 5, nextClientId := 9 } =
        some ({ reference_counter := 1, client := some 5, nextClientId := 9 },
              [Ev.stopContext, Ev.restartClient 5]) ∧
      countRestart [Ev.stopContext, Ev.restartClient 5] = 1) :=
  ⟨(c1_amended { reference_counter := 1, client := some 0, nextClientId := 1 } 0 rfl).1 rfl,
   (c1_amended { reference_counter := 2, client := some 5, nextClientId := 9 } 5 rfl).2
     (by decide)⟩

/-- Claim C2: an invocation of a Lock whose formatted concrete key is
already in the held-keys set for the current process id is a reentrant
no-op: the guarded body runs (the trace is exactly one bodyRun event, so
no remote-client method and no reference-counter operation occurs), the
outcome is the outcome of the body, and the Lock state and connection
state are returned unchanged. -/
theorem c2_reentrant_noop (inst : LockInst) (conn : ConnState) (ns : String)
    (blocking : Bool) (timeout : Option Nat) (key : String) (pid : Nat)
    (acq : AcqBeh) (body : BodyBeh)
    (h : key ∈ getLockedKeys inst.locked_store pid) :
    lockCall inst conn ns blocking timeout key pid acq body =
      some (inst, conn, bodyResult body, [Ev.bodyRun]) := by
  unfold lockCall
  simp [h]

/-- Witness for c2_reentrant_noop: key "k" already held by process 7. -/
theorem c2_reentrant_noop_witness :
    ("k" ∈ getLockedKeys [(7, ["k"])] 7) ∧
    lockCall { key := "t", lockId := 0, locked_store := [(7, ["k"])] }
        { reference_counter := 0, client := none, nextClientId := 0 }
        "ns" true none "k" 7 (AcqBeh.returns true) BodyBeh.returns =
      some ({ key := "t", lockId := 0, locked_store := [(7, ["k"])] },
            { reference_counter := 0, client := none, nextClientId := 0 },
            CallResult.ok, [Ev.bodyRun]) :=
  ⟨by decide, c2_reentrant_noop _ _ _ _ _ _ _ _ _ (by decide)⟩

/-- Claim C3, counterexample.  The claim states that even a reentrant
invocation first enters the connection scope (incrementing and then
decrementing the reference counter).  In the code the reentrancy check
precedes the `with zookeeper_connection_manager` block, so a reentrant
invocation never touches the connection manager: at a concrete reentrant
call the trace is exactly one bodyRun event — zero counter increments and
zero decrements — and the connection state (counter 5) is returned
unchanged. -/
theorem c3_counterexample :
    lockCall { key := "t", lockId := 0, locked_store := [(7, ["k"])] }
        { reference_counter := 5, client := some 2, nextClientId := 3 }
        "ns" true none "k" 7 (AcqBeh.returns true) BodyBeh.returns =
      some ({ key := "t", lockId := 0, locked_store := [(7, ["k"])] },
            { reference_counter := 5, client := some 2, nextClientId := 3 },
            CallResult.ok, [Ev.bodyRun]) ∧
    countStartCtx [Ev.bodyRun] = 0 ∧ countStopCtx [Ev.bodyRun] = 0 := by
  refine ⟨?_, by decide, by decide⟩
  decide

/-- Claim C9: calling stop_context when the reference counter is 0 is a
fatal assertion error, and calling get_client while the counter is 0 is a
fatal assertion error as well; both raise before mutating anything, so in
particular no client handle is created. -/
theorem c9_unmanaged_fatal (s : ConnState) (h : s.reference_counter = 0) :
    stop_context s = none ∧ get_client s = none := by
  unfold stop_context get_client is_managed
  simp [h]

/-- Witness for c9_unmanaged_fatal at the fresh state. -/
theorem c9_unmanaged_fatal_witness :
    stop_context { reference_counter := 0, client := none, nextClientId := 0 } = none ∧
    get_client { reference_counter := 0, client := none, nextClientId := 0 } = none :=
  c9_unmanaged_fatal { reference_counter := 0, client := none, nextClientId := 0 } rfl

/-! Shape lemmas for the non-reentrant path of lockCall. -/

lemma get_client_after_start (conn : ConnState) :
    ∃ conn2 cid ev2,
      get_client (start_context conn).1 = some (conn2, cid, ev2) ∧
      conn2.reference_counter = conn.reference_counter + 1 ∧
      countStartCtx ev2 = 0 ∧ countStopCtx ev2 = 0 ∧ countRelease ev2 = 0 := by
  obtain ⟨rc, cl, nx⟩ := conn
  cases cl with
  | none =>
      refine ⟨{ reference_counter := rc + 1, client := some nx, nextClientId := nx + 1 },
        nx, [Ev.createClient nx, Ev.startClient nx], ?_, rfl, rfl, rfl, rfl⟩
      unfold start_context get_client is_managed
      simp
  | some c =>
      refine ⟨{ reference_counter := rc + 1, client := some c, nextClientId := nx },
        c, [], ?_, rfl, rfl, rfl, rfl⟩
      unfold start_context get_client is_managed
      simp

lemma exit_ctx_shape (b : Bool) (s : ConnState) (h : 0 < s.reference_counter) :
    ∃ s1 evs, exit_ctx b s = some (s1, evs) ∧
      s1.reference_counter = s.reference_counter - 1 ∧
      countStartCtx evs = 0 ∧ countStopCtx evs = 1 ∧ countRelease evs = 0 ∧
      countCreateClient evs = 0 ∧ countStartClient evs = 0 := by
  obtain ⟨rc, cl, nx⟩ := s
  simp only at h
  by_cases hn : rc - 1 = 0
  · cases cl with
    | none =>
        refine ⟨{ reference_counter := rc - 1, client := none, nextClientId := nx },
          [Ev.stopContext], ?_, rfl, rfl, rfl, rfl, rfl, rfl⟩
        unfold exit_ctx stop_context is_managed has_client
        simp [h, hn]
    | some c =>
        refine ⟨{ reference_counter := rc - 1, client := none, nextClientId := nx },
          [Ev.stopContext, Ev.stopClient c], ?_, rfl, rfl, rfl, rfl, rfl, rfl⟩
        unfold exit_ctx stop_context is_managed has_client
        simp [h, hn]
  · cases cl with
    | none =>
        refine ⟨{ reference_counter := rc - 1, client := none, nextClientId := nx },
          [Ev.stopContext], ?_, rfl, rfl, rfl, rfl, rfl, rfl⟩
        unfold exit_ctx stop_context is_managed has_client
        simp [h, hn]
    | some c =>
        cases b with
        | false =>
            refine ⟨{ reference_counter := rc - 1, client := some c, nextClientId := nx },
              [Ev.stopContext], ?_, rfl, rfl, rfl, rfl, rfl, rfl⟩
            unfold exit_ctx stop_context is_managed has_client
            simp [h, hn]
        | true =>
            refine ⟨{ reference_counter := rc - 1, client := some c, nextClientId := nx },
              [Ev.stopContext, Ev.restartClient c], ?_, rfl, rfl, rfl, rfl, rfl, rfl⟩
            unfold exit_ctx stop_context is_managed has_client
            simp [h, hn]

/-- Claim C3, amended: the reentrancy check is performed before the
connection scope is entered.  A reentrant invocation never touches the
connection manager — its trace is exactly one bodyRun event and the
connection state is returned unchanged — while a non-reentrant
invocation enters the connection scope as its very first action (the
trace starts with the counter increment) and performs exactly one
increment and one matching decrement. -/
theorem c3_amended_check_before_scope (inst : LockInst) (conn : ConnState) (ns : String)
    (blocking : Bool) (timeout : Option Nat) (key : String) (pid : Nat)
    (acq : AcqBeh) (body : BodyBeh) :
    (key ∈ getLockedKeys inst.locked_store pid →
      lockCall inst conn ns blocking timeout key pid acq body =
        some (inst, conn, bodyResult body, [Ev.bodyRun])) ∧
    (key ∉ getLockedKeys inst.locked_store pid →
      ∃ inst2 conn2 res rest,
        lockCall inst conn ns blocking timeout key pid acq body =
          some (inst2, conn2, res, Ev.startContext :: rest) ∧
        countStartCtx (Ev.startContext :: rest) = 1 ∧
        countStopCtx (Ev.startContext :: rest) = 1) := by
  constructor
  · intro hin
    unfold lockCall
    simp [hin]
  · intro h
    obtain ⟨conn2, cid, ev2, hget, hrc, hc1, hc2, hc3⟩ := get_client_after_start conn
    have hpos : 0 < conn2.reference_counter := by omega
    unfold countStartCtx at hc1
    unfold countStopCtx at hc2
    cases acq with
    | raisesZkTimeout =>
        obtain ⟨conn3, ev4, hexit, hrc4, he1, he2, he3, he4, he5⟩ :=
          exit_ctx_shape false conn2 hpos
        unfold countStartCtx at he1
        unfold countStopCtx at he2
        refine ⟨inst, conn3,
          CallResult.raisedLockTimeout
            ("Timeout occurred while trying to acquire a blocking lock on " ++ key),
          (ev2 ++ [Ev.createLock (lockPath ns key),
            Ev.acquire (lockPath ns key) blocking timeout]) ++ ev4, ?_, ?_, ?_⟩
        · unfold lockCall
          simp only [if_neg h, hget, hexit]
          simp [start_context, List.append_assoc]
        · unfold countStartCtx
          simp [List.countP_cons, List.countP_append, isStartCtxEv, hc1, he1]
        · unfold countStopCtx
          simp [List.countP_cons, List.countP_append, isStopCtxEv, hc2, he2]
    | returns acquired =>
        cases acquired with
        | true =>
            have hrem := remove_after_add inst.locked_store pid key h
            obtain ⟨conn3, ev4, hexit, hrc4, he1, he2, he3, he4, he5⟩ :=
              exit_ctx_shape
                (match body with | BodyBeh.returns => false | BodyBeh.raises c => c)
                conn2 hpos
            unfold countStartCtx at he1
            unfold countStopCtx at he2
            refine ⟨{ inst with
                locked_store := storeSet inst.locked_store pid
                  (getLockedKeys inst.locked_store pid) }, conn3, bodyResult body,
              (ev2 ++ [Ev.createLock (lockPath ns key),
                Ev.acquire (lockPath ns key) blocking timeout] ++
                [Ev.markHeld pid key, Ev.bodyRun, Ev.release (lockPath ns key),
                  Ev.unmark pid key]) ++ ev4, ?_, ?_, ?_⟩
            · unfold lockCall
              simp only [if_neg h, hget, hrem, hexit]
              simp [start_context, List.append_assoc]
            · unfold countStartCtx
              simp [List.countP_cons, List.countP_append, isStartCtxEv, hc1, he1]
            · unfold countStopCtx
              simp [List.countP_cons, List.countP_append, isStopCtxEv, hc2, he2]
        | false =>
            obtain ⟨conn3, ev4, hexit, hrc4, he1, he2, he3, he4, he5⟩ :=
              exit_ctx_shape false conn2 hpos
            unfold countStartCtx at he1
            unfold countStopCtx at he2
            refine ⟨inst, conn3,
              CallResult.raisedLocked
                ("Failed to acquire a non-blocking lock on " ++ key),
              (ev2 ++ [Ev.createLock (lockPath ns key),
                Ev.acquire (lockPath ns key) blocking timeout]) ++ ev4, ?_, ?_, ?_⟩
            · unfold lockCall
              simp only [if_neg h, hget, hexit]
              simp [start_context, List.append_assoc]
            · unfold countStartCtx
              simp [List.countP_cons, List.countP_append, isStartCtxEv, hc1, he1]
            · unfold countStopCtx
              simp [List.countP_cons, List.countP_append, isStopCtxEv, hc2, he2]

/-- Witness for c3_amended_check_before_scope: a non-reentrant call with
a fresh store enters the connection scope as its first action. -/
theorem c3_amended_check_before_scope_witness :
    ("nk" ∉ getLockedKeys ([] : LockedStore) 7) ∧
    (∃ inst2 conn2 res rest,
      lockCall { key := "t", lockId := 1, locked_store := [] }
          { reference_counter := 0, client := none, nextClientId := 0 }
          "ns" false none "nk" 7 (AcqBeh.returns false) BodyBeh.returns =
        some (inst2, conn2, res, Ev.startContext :: rest) ∧
      countStartCtx (Ev.startContext :: rest) = 1 ∧
      countStopCtx (Ev.startContext :: rest) = 1) :=
  ⟨by decide,
   (c3_amended_check_before_scope { key := "t", lockId := 1, locked_store := [] }
      { reference_counter := 0, client := none, nextClientId := 0 }
      "ns" false none "nk" 7 (AcqBeh.returns false) BodyBeh.returns).2 (by decide)⟩

/-- Claim C4: for every non-reentrant Lock invocation whose remote
acquisition succeeds, and for every outcome of the guarded body: the
identity tuple is marked held immediately before the body runs, and on
exit the remote lock is released and the identity tuple unmarked
(release and unmark appear right after the body in the trace, on every
exit path), exactly one release call is made, the connection reference
counter is back to its value before the call, the held-keys set for this
process is back to its prior value, and the call outcome is the outcome
of the body. -/
theorem c4_success_cleanup (inst : LockInst) (conn : ConnState) (ns : String)
    (blocking : Bool) (timeout : Option Nat) (key : String) (pid : Nat) (body : BodyBeh)
    (h : key ∉ getLockedKeys inst.locked_store pid) :
    ∃ inst2 conn2 res evs pre post,
      lockCall inst conn ns blocking timeout key pid (AcqBeh.returns true) body =
        some (inst2, conn2, res, evs) ∧
      evs = pre ++ Ev.markHeld pid key :: Ev.bodyRun ::
        Ev.release (lockPath ns key) :: Ev.unmark pid key :: post ∧
      countRelease evs = 1 ∧
      conn2.reference_counter = conn.reference_counter ∧
      getLockedKeys inst2.locked_store pid = getLockedKeys inst.locked_store pid ∧
      res = bodyResult body := by
  obtain ⟨conn2, cid, ev2, hget, hrc, hc1, hc2, hc3⟩ := get_client_after_start conn
  have hpos : 0 < conn2.reference_counter := by omega
  unfold countRelease at hc3
  have hrem := remove_after_add inst.locked_store pid key h
  obtain ⟨conn3, ev4, hexit, hrc4, he1, he2, he3, he4, he5⟩ :=
    exit_ctx_shape
      (match body with | BodyBeh.returns => false | BodyBeh.raises c => c)
      conn2 hpos
  unfold countRelease at he3
  refine ⟨{ inst with
      locked_store := storeSet inst.locked_store pid
        (getLockedKeys inst.locked_store pid) }, conn3, bodyResult body,
    (Ev.startContext :: (ev2 ++ [Ev.createLock (lockPath ns key),
      Ev.acquire (lockPath ns key) blocking timeout])) ++
      Ev.markHeld pid key :: Ev.bodyRun ::
        Ev.release (lockPath ns key) :: Ev.unmark pid key :: ev4,
    Ev.startContext :: (ev2 ++ [Ev.createLock (lockPath ns key),
      Ev.acquire (lockPath ns key) blocking timeout]), ev4,
    ?_, rfl, ?_, ?_, ?_, rfl⟩
  · unfold lockCall
    simp only [if_neg h, hget, hrem, hexit]
    simp [start_context, List.append_assoc]
  · unfold countRelease
    simp [List.countP_cons, List.countP_append, isReleaseEv, hc3, he3]
  · omega
  · simp [getLockedKeys_storeSet_self]

/-- Witness for c4_success_cleanup: process 7 acquires key "nk" with a
raising body on a fresh connection state. -/
theorem c4_success_cleanup_witness :
    ("nk" ∉ getLockedKeys ([] : LockedStore) 7) ∧
    (∃ inst2 conn2 res evs pre post,
      lockCall { key := "t", lockId := 1, locked_store := [] }
          { reference_counter := 0, client := none, nextClientId := 0 }
          "ns" true none "nk" 7 (AcqBeh.returns true) (BodyBeh.raises false) =
        some (inst2, conn2, res, evs) ∧
      evs = pre ++ Ev.markHeld 7 "nk" :: Ev.bodyRun ::
        Ev.release (lockPath "ns" "nk") :: Ev.unmark 7 "nk" :: post ∧
      countRelease evs = 1 ∧
      conn2.reference_counter = 0 ∧
      getLockedKeys inst2.locked_store 7 = getLockedKeys ([] : LockedStore) 7 ∧
      res = bodyResult (BodyBeh.raises false)) :=
  ⟨by decide,
   c4_success_cleanup { key := "t", lockId := 1, locked_store := [] }
     { reference_counter := 0, client := none, nextClientId := 0 }
     "ns" true none "nk" 7 (BodyBeh.raises false) (by decide)⟩

/-- Claim C5: a non-reentrant invocation constructs the remote lock at
path /locks/{namespace}/{formatted key}; when the remote acquire returns
false the call raises Locked with the formatted key in its message, the
Lock state is returned unchanged (the key is not marked held), the
remote lock release is never called, and the connection scope is still
exited (reference counter back to its prior value). -/
theorem c5_locked_no_release (inst : LockInst) (conn : ConnState) (ns : String)
    (blocking : Bool) (timeout : Option Nat) (key : String) (pid : Nat) (body : BodyBeh)
    (h : key ∉ getLockedKeys inst.locked_store pid) :
    ∃ conn2 evs,
      lockCall inst conn ns blocking timeout key pid (AcqBeh.returns false) body =
        some (inst, conn2,
          CallResult.raisedLocked ("Failed to acquire a non-blocking lock on " ++ key),
          evs) ∧
      Ev.createLock ("/locks/" ++ ns ++ "/" ++ key) ∈ evs ∧
      countRelease evs = 0 ∧
      conn2.reference_counter = conn.reference_counter := by
  obtain ⟨conn2, cid, ev2, hget, hrc, hc1, hc2, hc3⟩ := get_client_after_start conn
  have hpos : 0 < conn2.reference_counter := by omega
  unfold countRelease at hc3
  obtain ⟨conn3, ev4, hexit, hrc4, he1, he2, he3, he4, he5⟩ :=
    exit_ctx_shape false conn2 hpos
  unfold countRelease at he3
  refine ⟨conn3,
    (Ev.startContext :: (ev2 ++ [Ev.createLock (lockPath ns key),
      Ev.acquire (lockPath ns key) blocking timeout])) ++ ev4, ?_, ?_, ?_, ?_⟩
  · unfold lockCall
    simp only [if_neg h, hget, hexit]
    simp [start_context, List.append_assoc]
  · simp [lockPath]
  · unfold countRelease
    simp [List.countP_cons, List.countP_append, isReleaseEv, hc3, he3]
  · omega

/-- Witness for c5_locked_no_release: failed non-blocking acquire of key
"nk" by process 7 on a fresh connection state. -/
theorem c5_locked_no_release_witness :
    ("nk" ∉ getLockedKeys ([] : LockedStore) 7) ∧
    (∃ conn2 evs,
      lockCall { key := "t", lockId := 1, locked_store := [] }
          { reference_counter := 0, client := none, nextClientId := 0 }
          "ns" false none "nk" 7 (AcqBeh.returns false) BodyBeh.returns =
        some ({ key := "t", lockId := 1, locked_store := [] }, conn2,
          CallResult.raisedLocked ("Failed to acquire a non-blocking lock on " ++ "nk"),
          evs) ∧
      Ev.createLock ("/locks/" ++ "ns" ++ "/" ++ "nk") ∈ evs ∧
      countRelease evs = 0 ∧
      conn2.reference_counter = 0) :=
  ⟨by decide,
   c5_locked_no_release { key := "t", lockId := 1, locked_store := [] }
     { reference_counter := 0, client := none, nextClientId := 0 }
     "ns" false none "nk" 7 BodyBeh.returns (by decide)⟩

/-- Claim C6: when the remote acquire raises the remote client timeout
condition, the call raises LockTimeout with the formatted key in its
message, the Lock state is returned unchanged (the key is not marked
held), no release call is made, and the connection scope is still exited
(reference counter back to its prior value) before the error
propagates. -/
theorem c6_timeout_translated (inst : LockInst) (conn : ConnState) (ns : String)
    (blocking : Bool) (timeout : Option Nat) (key : String) (pid : Nat) (body : BodyBeh)
    (h : key ∉ getLockedKeys inst.locked_store pid) :
    ∃ conn2 evs,
      lockCall inst conn ns blocking timeout key pid AcqBeh.raisesZkTimeout body =
        some (inst, conn2,
          CallResult.raisedLockTimeout
            ("Timeout occurred while trying to acquire a blocking lock on " ++ key),
          evs) ∧
      countRelease evs = 0 ∧
      conn2.reference_counter = conn.reference_counter := by
  obtain ⟨conn2, cid, ev2, hget, hrc, hc1, hc2, hc3⟩ := get_client_after_start conn
  have hpos : 0 < conn2.reference_counter := by omega
  unfold countRelease at hc3
  obtain ⟨conn3, ev4, hexit, hrc4, he1, he2, he3, he4, he5⟩ :=
    exit_ctx_shape false conn2 hpos
  unfold countRelease at he3
  refine ⟨conn3,
    (Ev.startContext :: (ev2 ++ [Ev.createLock (lockPath ns key),
      Ev.acquire (lockPath ns key) blocking timeout])) ++ ev4, ?_, ?_, ?_⟩
  · unfold lockCall
    simp only [if_neg h, hget, hexit]
    simp [start_context, List.append_assoc]
  · unfold countRelease
    simp [List.countP_cons, List.countP_append, isReleaseEv, hc3, he3]
  · omega

/-- Witness for c6_timeout_translated: remote timeout while process 7
acquires key "nk" on a fresh connection state. -/
theorem c6_timeout_translated_witness :
    ("nk" ∉ getLockedKeys ([] : LockedStore) 7) ∧
    (∃ conn2 evs,
      lockCall { key := "t", lockId := 1, locked_store := [] }
          { reference_counter := 0, client := none, nextClientId := 0 }
          "ns" true (some 10) "nk" 7 AcqBeh.raisesZkTimeout BodyBeh.returns =
        some ({ key := "t", lockId := 1, locked_store := [] }, conn2,
          CallResult.raisedLockTimeout
            ("Timeout occurred while trying to acquire a blocking lock on " ++ "nk"),
          evs) ∧
      countRelease evs = 0 ∧
      conn2.reference_counter = 0) :=
  ⟨by decide,
   c6_timeout_translated { key := "t", lockId := 1, locked_store := [] }
     { reference_counter := 0, client := none, nextClientId := 0 }
     "ns" true (some 10) "nk" 7 BodyBeh.returns (by decide)⟩

/-! Trace-count append lemmas. -/

@[simp] lemma countCreateClient_append (a b : List Ev) :
    countCreateClient (a ++ b) = countCreateClient a + countCreateClient b := by
  simp [countCreateClient, List.countP_append]

@[simp] lemma countStartClient_append (a b : List Ev) :
    countStartClient (a ++ b) = countStartClient a + countStartClient b := by
  simp [countStartClient, List.countP_append]

@[simp] lemma countStopClient_append (a b : List Ev) :
    countStopClient (a ++ b) = countStopClient a + countStopClient b := by
  simp [countStopClient, List.countP_append]

/-- Appending operation sequences composes their runs. -/
lemma runOps_append (a b : List MOp) (s s1 : ConnState) (e1 : List Ev) (i1 : List Nat)
    (s2 : ConnState) (e2 : List Ev) (i2 : List Nat)
    (h1 : runOps a s = some (s1, e1, i1)) (h2 : runOps b s1 = some (s2, e2, i2)) :
    runOps (a ++ b) s = some (s2, e1 ++ e2, i1 ++ i2) := by
  induction a generalizing s e1 i1 with
  | nil =>
      simp [runOps] at h1
      obtain ⟨hs, he, hi⟩ := h1
      subst hs; subst he; subst hi
      simp [h2]
  | cons op rest ih =>
      cases op with
      | enterScope =>
          rw [runOps] at h1
          rcases hr : runOps rest (start_context s).1 with _ | ⟨⟨sm, em, im⟩⟩
          · rw [hr] at h1; exact absurd h1 (by simp)
          · rw [hr] at h1
            simp only [Option.some.injEq, Prod.mk.injEq] at h1
            obtain ⟨hs, he, hi⟩ := h1
            subst hs; subst hi
            have := ih (start_context s).1 em im hr
            rw [List.cons_append, runOps, this]
            simp [← he, List.append_assoc]
      | exitScope =>
          rw [runOps] at h1
          rcases h0 : stop_context s with _ | ⟨⟨sm, em⟩⟩
          · rw [h0] at h1; exact absurd h1 (by simp)
          · rw [h0] at h1
            simp only [] at h1
            rcases hr : runOps rest sm with _ | ⟨⟨sn, en, inn⟩⟩
            · rw [hr] at h1; exact absurd h1 (by simp)
            · rw [hr] at h1
              simp only [Option.some.injEq, Prod.mk.injEq] at h1
              obtain ⟨hs, he, hi⟩ := h1
              subst hs; subst hi
              have := ih sm en inn hr
              rw [List.cons_append, runOps, h0]
              simp [this, ← he, List.append_assoc]
      | getClientCall =>
          rw [runOps] at h1
          rcases h0 : get_client s with _ | ⟨⟨sm, c, em⟩⟩
          · rw [h0] at h1; exact absurd h1 (by simp)
          · rw [h0] at h1
            simp only [] at h1
            rcases hr : runOps rest sm with _ | ⟨⟨sn, en, inn⟩⟩
            · rw [hr] at h1; exact absurd h1 (by simp)
            · rw [hr] at h1
              simp only [Option.some.injEq, Prod.mk.injEq] at h1
              obtain ⟨hs, he, hi⟩ := h1
              subst hs; subst hi
              have := ih sm en inn hr
              rw [List.cons_append, runOps, h0]
              simp [this, ← he, List.append_assoc]

/-- Inside one outermost scope, while a client handle exists, no client
is created, started or stopped; every get_client call returns the
existing handle; and the run ends at depth 1 with the same handle. -/
lemma runOps_client_stable (ops : List MOp) :
    ∀ (d c : Nat) (s : ConnState), insideOk ops d = true → 1 ≤ d →
      s.reference_counter = d → s.client = some c →
      ∃ evs ids,
        runOps ops s =
          some ({ reference_counter := 1, client := some c,
                  nextClientId := s.nextClientId }, evs, ids) ∧
        (∀ x ∈ ids, x = c) ∧
        countCreateClient evs = 0 ∧ countStartClient evs = 0 ∧
        countStopClient evs = 0 := by
  induction ops with
  | nil =>
      intro d c s hok hd hrc hcl
      rw [insideOk] at hok
      have hd1 : d = 1 := by simpa using hok
      obtain ⟨rc, cl, nx⟩ := s
      simp only at hrc hcl
      subst hrc; subst hd1; subst hcl
      exact ⟨[], [], rfl, by simp, rfl, rfl, rfl⟩
  | cons op rest ih =>
      intro d c s hok hd hrc hcl
      cases op with
      | enterScope =>
          rw [insideOk] at hok
          obtain ⟨evs, ids, hrun, hids, h1, h2, h3⟩ :=
            ih (d + 1) c (start_context s).1 hok (by omega)
              (by simp [start_context, hrc]) (by simp [start_context, hcl])
          simp only [start_context] at hrun
          refine ⟨[Ev.startContext] ++ evs, ids, ?_, hids, ?_, ?_, ?_⟩
          · rw [runOps]
            simp [start_context, hrun]
          · simp [countCreateClient, List.countP_cons, isCreateClientEv] at h1 ⊢
            exact h1
          · simp [countStartClient, List.countP_cons, isStartClientEv] at h2 ⊢
            exact h2
          · simp [countStopClient, List.countP_cons, isStopClientEv] at h3 ⊢
            exact h3
      | exitScope =>
          rw [insideOk] at hok
          simp only [Bool.and_eq_true, decide_eq_true_eq] at hok
          obtain ⟨hd2, hrest⟩ := hok
          have hne : ¬ (s.reference_counter - 1 = 0) := by omega
          have hpos : (0 < s.reference_counter) := by omega
          have hstop : stop_context s =
              some ({ s with reference_counter := s.reference_counter - 1 },
                    [Ev.stopContext]) := by
            unfold stop_context is_managed
            simp [hpos, hne]
          obtain ⟨evs, ids, hrun, hids, h1, h2, h3⟩ :=
            ih (d - 1) c { s with reference_counter := s.reference_counter - 1 }
              hrest (by omega) (by simp [hrc]) (by simp [hcl])
          simp only at hrun
          refine ⟨[Ev.stopContext] ++ evs, ids, ?_, hids, ?_, ?_, ?_⟩
          · rw [runOps, hstop]
            simp [hrun]
          · simp [countCreateClient, List.countP_cons, isCreateClientEv] at h1 ⊢
            exact h1
          · simp [countStartClient, List.countP_cons, isStartClientEv] at h2 ⊢
            exact h2
          · simp [countStopClient, List.countP_cons, isStopClientEv] at h3 ⊢
            exact h3
      | getClientCall =>
          rw [insideOk] at hok
          have hpos : (0 < s.reference_counter) := by omega
          have hget : get_client s = some (s, c, []) := by
            unfold get_client is_managed
            simp [hpos, hcl]
          obtain ⟨evs, ids, hrun, hids, h1, h2, h3⟩ :=
            ih d c s hok hd hrc hcl
          refine ⟨[] ++ evs, c :: ids, ?_, ?_, ?_, ?_, ?_⟩
          · rw [runOps, hget]
            simp [hrun]
          · intro x hx
            rcases List.mem_cons.mp hx with hx1 | hx2
            · exact hx1
            · exact hids x hx2
          · simpa using h1
          · simpa using h2
          · simpa using h3

/-- Inside one outermost scope, starting with no client handle, at most
one client is ever created and started, no client is stopped, every
get_client call returns the single created handle, and the run ends at
depth 1 with either no handle or that single handle. -/
lemma runOps_no_client (ops : List MOp) :
    ∀ (d : Nat) (s : ConnState), insideOk ops d = true → 1 ≤ d →
      s.reference_counter = d → s.client = none →
      ∃ sf evs ids,
        runOps ops s = some (sf, evs, ids) ∧
        (∀ x ∈ ids, x = s.nextClientId) ∧
        countCreateClient evs ≤ 1 ∧ countStartClient evs ≤ 1 ∧
        countStopClient evs = 0 ∧
        sf.reference_counter = 1 ∧
        (sf.client = none ∨ sf.client = some s.nextClientId) := by
  induction ops with
  | nil =>
      intro d s hok hd hrc hcl
      rw [insideOk] at hok
      have hd1 : d = 1 := by simpa using hok
      refine ⟨s, [], [], rfl, by simp, by simp [countCreateClient],
        by simp [countStartClient], by simp [countStopClient], by omega, Or.inl hcl⟩
  | cons op rest ih =>
      intro d s hok hd hrc hcl
      cases op with
      | enterScope =>
          rw [insideOk] at hok
          obtain ⟨sf, evs, ids, hrun, hids, h1, h2, h3, h4, h5⟩ :=
            ih (d + 1) (start_context s).1 hok (by omega)
              (by simp [start_context, hrc]) (by simp [start_context, hcl])
          simp only [start_context] at hrun hids h5
          refine ⟨sf, [Ev.startContext] ++ evs, ids, ?_, hids, ?_, ?_, ?_, h4, h5⟩
          · rw [runOps]
            simp [start_context, hrun]
          · simpa [countCreateClient, List.countP_cons, isCreateClientEv] using h1
          · simpa [countStartClient, List.countP_cons, isStartClientEv] using h2
          · simp [countStopClient, List.countP_cons, isStopClientEv] at h3 ⊢
            exact h3
      | exitScope =>
          rw [insideOk] at hok
          simp only [Bool.and_eq_true, decide_eq_true_eq] at hok
          obtain ⟨hd2, hrest⟩ := hok
          have hne : ¬ (s.reference_counter - 1 = 0) := by omega
          have hpos : (0 < s.reference_counter) := by omega
          have hstop : stop_context s =
              some ({ s with reference_counter := s.reference_counter - 1 },
                    [Ev.stopContext]) := by
            unfold stop_context is_managed
            rcases hc : s.client with _ | c
            · simp [hpos, hne]
            · simp [hpos, hne]
          obtain ⟨sf, evs, ids, hrun, hids, h1, h2, h3, h4, h5⟩ :=
            ih (d - 1) { s with reference_counter := s.reference_counter - 1 }
              hrest (by omega) (by simp [hrc]) (by simp [hcl])
          simp only at hrun hids h5
          refine ⟨sf, [Ev.stopContext] ++ evs, ids, ?_, hids, ?_, ?_, ?_, h4, h5⟩
          · rw [runOps, hstop]
            simp [hrun]
          · simpa [countCreateClient, List.countP_cons, isCreateClientEv] using h1
          · simpa [countStartClient, List.countP_cons, isStartClientEv] using h2
          · simp [countStopClient, List.countP_cons, isStopClientEv] at h3 ⊢
            exact h3
      | getClientCall =>
          rw [insideOk] at hok
          have hpos : (0 < s.reference_counter) := by omega
          have hget : get_client s =
              some (({ s with
                         client := some s.nextClientId
                         nextClientId := s.nextClientId + 1 } : ConnState),
                    s.nextClientId,
                    [Ev.createClient s.nextClientId, Ev.startClient s.nextClientId]) := by
            unfold get_client is_managed
            simp [hpos, hcl]
          obtain ⟨evs, ids, hrun, hids, h1, h2, h3⟩ :=
            runOps_client_stable rest d s.nextClientId
              ({ s with
                   client := some s.nextClientId
                   nextClientId := s.nextClientId + 1 } : ConnState)
              hok hd (by simp [hrc]) (by simp)
          simp only at hrun
          refine ⟨({ reference_counter := 1
                     client := some s.nextClientId
                     nextClientId := s.nextClientId + 1 } : ConnState),
            [Ev.createClient s.nextClientId, Ev.startClient s.nextClientId] ++ evs,
            s.nextClientId :: ids, ?_, ?_, ?_, ?_, ?_, rfl, Or.inr rfl⟩
          · rw [runOps, hget]
            simp [hrun]
          · intro x hx
            rcases List.mem_cons.mp hx with hx1 | hx2
            · exact hx1
            · exact hids x hx2
          · have e1 : countCreateClient [Ev.createClient s.nextClientId,
                Ev.startClient s.nextClientId] = 1 := rfl
            rw [countCreateClient_append, h1, e1]
          · have e2 : countStartClient [Ev.createClient s.nextClientId,
                Ev.startClient s.nextClientId] = 1 := rfl
            rw [countStartClient_append, h2, e2]
          · have e3 : countStopClient [Ev.createClient s.nextClientId,
                Ev.startClient s.nextClientId] = 0 := rfl
            rw [countStopClient_append, h3, e3]

/-- Claim C7: for every balanced sequence of scope operations forming one
outermost scope (an enterScope, then a well-nested interior, then the
matching exitScope), starting from a fresh thread state: every get_client
call in the sequence returns the same handle, the client is constructed
at most once and started at most once across the whole sequence, and once
the outermost scope exits no handle exists (and the reference counter is
back to 0). -/
theorem c7_nested_scope_sharing (mid : List MOp) (n : Nat)
    (h : insideOk mid 1 = true) :
    ∃ sf evs ids,
      runOps (MOp.enterScope :: mid ++ [MOp.exitScope])
          { reference_counter := 0, client := none, nextClientId := n } =
        some (sf, evs, ids) ∧
      (∀ x ∈ ids, x = n) ∧
      (∀ x ∈ ids, ∀ y ∈ ids, x = y) ∧
      countCreateClient evs ≤ 1 ∧ countStartClient evs ≤ 1 ∧
      sf.client = none ∧ sf.reference_counter = 0 := by
  obtain ⟨sf1, evs1, ids1, hrun1, hids, hcc, hsc, hstop0, hrc1, hcl1⟩ :=
    runOps_no_client mid 1
      { reference_counter := 1, client := none, nextClientId := n }
      h (le_refl 1) rfl rfl
  simp only at hids
  have hfin : ∃ sff evstp, runOps [MOp.exitScope] sf1 = some (sff, evstp, []) ∧
      sff.client = none ∧ sff.reference_counter = 0 ∧
      countCreateClient evstp = 0 ∧ countStartClient evstp = 0 := by
    rcases hcl1 with hnone | hsome
    · refine ⟨{ sf1 with reference_counter := 0 }, [Ev.stopContext], ?_, hnone,
        rfl, rfl, rfl⟩
      have hstop : stop_context sf1 =
          some ({ sf1 with reference_counter := 0 }, [Ev.stopContext]) := by
        unfold stop_context is_managed
        simp [hrc1, hnone]
      simp [runOps, hstop]
    · refine ⟨{ sf1 with
          reference_counter := 0
          client := none }, [Ev.stopContext, Ev.stopClient n], ?_, rfl,
        rfl, rfl, rfl⟩
      have hstop : stop_context sf1 =
          some (({ sf1 with
                     reference_counter := 0
                     client := none } : ConnState),
                [Ev.stopContext, Ev.stopClient n]) := by
        unfold stop_context is_managed
        simp [hrc1, hsome]
      simp [runOps, hstop]
  obtain ⟨sff, evstp, hfinrun, hffcl, hffrc, hffc1, hffc2⟩ := hfin
  have happ := runOps_append mid [MOp.exitScope]
    { reference_counter := 1, client := none, nextClientId := n }
    sf1 evs1 ids1 sff evstp [] hrun1 hfinrun
  refine ⟨sff, Ev.startContext :: (evs1 ++ evstp), ids1, ?_, hids, ?_, ?_, ?_,
    hffcl, hffrc⟩
  · simp only [runOps, start_context]
    simp [happ]
  · intro x hx y hy
    rw [hids x hx, hids y hy]
  · rw [show Ev.startContext :: (evs1 ++ evstp) =
        [Ev.startContext] ++ (evs1 ++ evstp) from rfl,
      countCreateClient_append, countCreateClient_append]
    have e0 : countCreateClient [Ev.startContext] = 0 := rfl
    omega
  · rw [show Ev.startContext :: (evs1 ++ evstp) =
        [Ev.startContext] ++ (evs1 ++ evstp) from rfl,
      countStartClient_append, countStartClient_append]
    have e0 : countStartClient [Ev.startContext] = 0 := rfl
    omega

/-- Witness for c7_nested_scope_sharing: one outer scope containing a
get_client call, a nested inner scope with its own get_client call, and a
final get_client call after the inner scope exits. -/
theorem c7_nested_scope_sharing_witness :
    insideOk [MOp.getClientCall, MOp.enterScope, MOp.getClientCall,
      MOp.exitScope, MOp.getClientCall] 1 = true ∧
    (∃ sf evs ids,
      runOps (MOp.enterScope :: [MOp.getClientCall, MOp.enterScope,
          MOp.getClientCall, MOp.exitScope, MOp.getClientCall] ++ [MOp.exitScope])
          { reference_counter := 0, client := none, nextClientId := 5 } =
        some (sf, evs, ids) ∧
      (∀ x ∈ ids, x = 5) ∧
      (∀ x ∈ ids, ∀ y ∈ ids, x = y) ∧
      countCreateClient evs ≤ 1 ∧ countStartClient evs ≤ 1 ∧
      sf.client = none ∧ sf.reference_counter = 0) :=
  ⟨by decide,
   c7_nested_scope_sharing [MOp.getClientCall, MOp.enterScope, MOp.getClientCall,
     MOp.exitScope, MOp.getClientCall] 5 (by decide)⟩

/-! Registry lemmas. -/

lemma lookupKey_append_right (reg : Registry) (k : String) (v : Nat)
    (h : lookupKey reg k = none) : lookupKey (reg ++ [(k, v)]) k = some v := by
  induction reg with
  | nil => simp [lookupKey]
  | cons hd tl ih =>
      obtain ⟨k0, v0⟩ := hd
      rw [lookupKey] at h
      by_cases hk : k0 = k
      · rw [if_pos hk] at h
        exact absurd h (by simp)
      · rw [if_neg hk] at h
        rw [List.cons_append, lookupKey, if_neg hk]
        exact ih h

lemma lockDel_append_self (reg : Registry) (k : String) (v : Nat)
    (h : v ∉ reg.map Prod.snd) : lockDel v (reg ++ [(k, v)]) = reg := by
  induction reg with
  | nil => simp [lockDel]
  | cons hd tl ih =>
      obtain ⟨k0, v0⟩ := hd
      simp only [List.map_cons, List.mem_cons] at h
      push_neg at h
      obtain ⟨h1, h2⟩ := h
      have hne : ¬ (v0 = v) := fun hh => h1 hh.symm
      rw [List.cons_append, lockDel, if_neg hne, ih h2]

lemma lockDel_not_mem (reg : Registry) (v : Nat) (h : v ∉ reg.map Prod.snd) :
    lockDel v reg = reg := by
  induction reg with
  | nil => rfl
  | cons hd tl ih =>
      obtain ⟨k0, v0⟩ := hd
      simp only [List.map_cons, List.mem_cons] at h
      push_neg at h
      obtain ⟨h1, h2⟩ := h
      have hne : ¬ (v0 = v) := fun hh => h1 hh.symm
      rw [lockDel, if_neg hne, ih h2]

/-- Claim C8: registering a fresh key succeeds; registering the same key
again while the first registrant is alive fails with the duplicate-key
configuration error; destructing the first registrant removes exactly its
registration; and registering the key afterwards succeeds again.  The
hypothesis that id1 does not occur among the registered identities
reflects that distinct live Python objects have distinct id() values. -/
theorem c8_duplicate_key_lifecycle (reg : Registry) (k : String) (id1 id2 id3 : Nat)
    (hk : lookupKey reg k = none) (h1 : id1 ∉ reg.map Prod.snd) :
    register k id1 reg = some (reg ++ [(k, id1)]) ∧
    register k id2 (reg ++ [(k, id1)]) = none ∧
    lockDel id1 (reg ++ [(k, id1)]) = reg ∧
    register k id3 reg = some (reg ++ [(k, id3)]) := by
  refine ⟨?_, ?_, lockDel_append_self reg k id1 h1, ?_⟩
  · unfold register
    simp [hk]
  · unfold register
    simp [lookupKey_append_right reg k id1 hk]
  · unfold register
    simp [hk]

/-- Witness for c8_duplicate_key_lifecycle with a one-entry registry. -/
theorem c8_duplicate_key_lifecycle_witness :
    (lookupKey [("other", 1)] "key2" = none) ∧
    (2 ∉ ([("other", 1)] : Registry).map Prod.snd) ∧
    register "key2" 2 [("other", 1)] = some [("other", 1), ("key2", 2)] ∧
    register "key2" 3 [("other", 1), ("key2", 2)] = none ∧
    lockDel 2 [("other", 1), ("key2", 2)] = [("other", 1)] ∧
    register "key2" 4 [("other", 1)] = some [("other", 1), ("key2", 4)] :=
  ⟨by decide, by decide,
   (c8_duplicate_key_lifecycle [("other", 1)] "key2" 2 3 4 (by decide) (by decide)).1,
   (c8_duplicate_key_lifecycle [("other", 1)] "key2" 2 3 4 (by decide) (by decide)).2.1,
   (c8_duplicate_key_lifecycle [("other", 1)] "key2" 2 3 4 (by decide) (by decide)).2.2.1,
   (c8_duplicate_key_lifecycle [("other", 1)] "key2" 2 3 4 (by decide) (by decide)).2.2.2⟩

/-- Claim C10: a duplicate-key construction fails leaving the registry
unchanged — the key still maps to the original registrant — and the later
destruction of the failed instance deletes nothing, because the
destructor only removes an entry whose stored identity equals the
destructed instance's own identity and the failed instance's identity was
never stored. -/
theorem c10_failed_construction_registry (reg : Registry) (k : String)
    (origId failedId : Nat) (hk : lookupKey reg k = some origId)
    (hf : failedId ∉ reg.map Prod.snd) :
    register k failedId reg = none ∧
    lockDel failedId reg = reg ∧
    lookupKey (lockDel failedId reg) k = some origId := by
  refine ⟨?_, lockDel_not_mem reg failedId hf, ?_⟩
  · unfold register
    simp [hk]
  · rw [lockDel_not_mem reg failedId hf]
    exact hk

/-- Witness for c10_failed_construction_registry with a one-entry
registry holding the contested key. -/
theorem c10_failed_construction_registry_witness :
    (lookupKey [("kk", 11)] "kk" = some 11) ∧
    (12 ∉ ([("kk", 11)] : Registry).map Prod.snd) ∧
    register "kk" 12 [("kk", 11)] = none ∧
    lockDel 12 [("kk", 11)] = [("kk", 11)] ∧
    lookupKey (lockDel 12 [("kk", 11)]) "kk" = some 11 :=
  ⟨by decide, by decide,
   (c10_failed_construction_registry [("kk", 11)] "kk" 11 12 (by decide) (by decide)).1,
   (c10_failed_construction_registry [("kk", 11)] "kk" 11 12 (by decide) (by decide)).2.1,
   (c10_failed_construction_registry [("kk", 11)] "kk" 11 12 (by decide) (by decide)).2.2⟩
